import Mathlib

/-!
Verification development for the binance-rsi-scanner repository (src/app.py).

The file embeds, over ℚ, the parts of app.py the claims are about:
the signal-detection loops over the indicator-annotated chart frame, the
indicator computation `add_indicators` (delegating to the ta library:
RSIIndicator, MACD, WilliamsRIndicator, transcribed from that library's
formulas), the RSI scanner loop with `get_latest_rsi`, and — modelled from
the spec, since the multi-source variants of the repository are not in
src/ — the fallback orchestrator over provider adapters.
-/

set_option linter.unusedVariables false

namespace App

/-- Indicator-annotated chart frame as read positionally by the
signal-detection loops of app.py (columns open/high/low/close and the
indicator columns RSI and WILLR), with `len` the number of rows. -/
structure Frame where
  len : Nat
  openP : Nat → ℚ
  highP : Nat → ℚ
  lowP : Nat → ℚ
  closeP : Nat → ℚ
  rsi : Nat → ℚ
  willr : Nat → ℚ

/-- Detection block 1 (app.py lines 262-266): WILLR crosses down through
-20 (previous > -20, current ≤ -20) and RSI at the current index > 69. -/
def block1Cond (f : Frame) (i : Nat) : Bool :=
  decide (f.willr (i-1) > -20) && decide (f.willr i ≤ -20) && decide (f.rsi i > 69)

/-- Detection block 2 (app.py lines 286-294): RSI > 69, close below the
previous close, and WILLR crosses down through -20. -/
def block2Cond (f : Frame) (i : Nat) : Bool :=
  decide (f.rsi i > 69) && decide (f.closeP i < f.closeP (i-1)) &&
  decide (f.willr (i-1) > -20) && decide (f.willr i ≤ -20)

/-- Detection block 3 (app.py lines 327-339): some RSI value in the slice
iloc[i-10:i-4] (positions i-10 .. i-5) is ≥ 70, close below the previous
close, and WILLR crosses down through -20. -/
def block3Cond (f : Frame) (i : Nat) : Bool :=
  ((List.range' (i-10) 6).any fun j => decide (f.rsi j ≥ 70)) &&
  decide (f.closeP i < f.closeP (i-1)) &&
  decide (f.willr (i-1) > -20) && decide (f.willr i ≤ -20)

/-- SELL condition of the unified signal engine (app.py lines 385-389):
RSI now > 70 or some RSI in iloc[i-10:i-4] ≥ 70, close below the previous
close, and WILLR crosses down through -20. -/
def sellCond (f : Frame) (i : Nat) : Bool :=
  (decide (f.rsi i > 70) || (List.range' (i-10) 6).any fun j => decide (f.rsi j ≥ 70)) &&
  decide (f.closeP i < f.closeP (i-1)) &&
  decide (f.willr (i-1) > -20) && decide (f.willr i ≤ -20)

/-- BUY condition of the unified signal engine (app.py lines 397-409):
RSI oversold now, or crossing back above 30, or the minimum of
iloc[i-12:i] ≤ 30; close above open or close ≥ previous close; and WILLR
either strictly crosses up through -80 or the minimum of iloc[i-3:i] is
≤ -85 with the current WILLR ≥ -80. -/
def buyCond (f : Frame) (i : Nat) : Bool :=
  (decide (f.rsi i < 30) ||
   (decide (f.rsi (i-1) < 30) && decide (f.rsi i ≥ 30)) ||
   (List.range' (i-12) 12).any fun j => decide (f.rsi j ≤ 30)) &&
  (decide (f.closeP i > f.openP i) || decide (f.closeP i ≥ f.closeP (i-1))) &&
  ((decide (f.willr (i-1) ≤ -80) && decide (f.willr i > -80)) ||
   (((List.range' (i-3) 3).any fun j => decide (f.willr j ≤ -85)) && decide (f.willr i ≥ -80)))

/-- Indices at which block 1 appends a marker tuple; the block runs only
when the selected timeframe is "15m" and loops i over range(1, len). -/
def block1Signals (tf : String) (f : Frame) : List Nat :=
  if tf = "15m" then (List.range' 1 (f.len - 1)).filter (block1Cond f) else []

/-- Indices at which block 2 appends its marker tuples (range(1, len),
gated on the "15m" timeframe). -/
def block2Signals (tf : String) (f : Frame) : List Nat :=
  if tf = "15m" then (List.range' 1 (f.len - 1)).filter (block2Cond f) else []

/-- Indices at which block 3 appends its marker tuples (range(10, len),
gated on the "15m" timeframe). -/
def block3Signals (tf : String) (f : Frame) : List Nat :=
  if tf = "15m" then (List.range' 10 (f.len - 10)).filter (block3Cond f) else []

/-- Indices at which the unified engine appends a SELL signal
(range(12, len), gated on the "15m" timeframe). -/
def sellSignals (tf : String) (f : Frame) : List Nat :=
  if tf = "15m" then (List.range' 12 (f.len - 12)).filter (sellCond f) else []

/-- Indices at which the unified engine appends a BUY signal
(range(12, len), gated on the "15m" timeframe). -/
def buySignals (tf : String) (f : Frame) : List Nat :=
  if tf = "15m" then (List.range' 12 (f.len - 12)).filter (buyCond f) else []

/-- Total number of sell-kind events emitted at index i across the four
sell-direction detection passes of app.py. -/
def sellKindCount (tf : String) (f : Frame) (i : Nat) : Nat :=
  (block1Signals tf f).count i + (block2Signals tf f).count i +
  (block3Signals tf f).count i + (sellSignals tf f).count i

/-- Membership in a `range'`-based filter, phrased with plain bounds. -/
theorem mem_filter_range' (s : Nat) (len : Nat) (p : Nat → Bool) (i : Nat) :
    i ∈ (List.range' s (len - s)).filter p ↔ s ≤ i ∧ i < len ∧ p i = true := by
  rw [List.mem_filter, List.mem_range']
  constructor
  · rintro ⟨⟨j, hj, rfl⟩, hp⟩
    exact ⟨Nat.le_add_right _ _, by omega, hp⟩
  · rintro ⟨hs, hlt, hp⟩
    exact ⟨⟨i - s, by omega, by omega⟩, hp⟩

/-- SELL condition exactly as claim C3 words it: RSI now > 70 or RSI
strictly above 70 somewhere 4 to 10 candles back, close below previous
close, and WILLR crossing with previous ≥ -20 and current < -20. -/
def sellCondSpec (f : Frame) (i : Nat) : Bool :=
  (decide (f.rsi i > 70) || (List.range' (i-10) 7).any fun j => decide (f.rsi j > 70)) &&
  decide (f.closeP i < f.closeP (i-1)) &&
  decide (f.willr (i-1) ≥ -20) && decide (f.willr i < -20)

/-- SELL condition as amended: RSI now > 70 or RSI ≥ 70 somewhere 5 to 10
candles back, close below previous close, and WILLR with previous > -20
and current ≤ -20. -/
def sellCondAmended (f : Frame) (i : Nat) : Bool :=
  (decide (f.rsi i > 70) || (List.range' (i-10) 6).any fun j => decide (f.rsi j ≥ 70)) &&
  decide (f.closeP i < f.closeP (i-1)) &&
  decide (f.willr (i-1) > -20) && decide (f.willr i ≤ -20)

/-- BUY condition as claim C4 words it: oversold RSI (now, or upward cross
through 30, or a dip to ≤ 30 in the trailing 12 candles), price moving up
(bullish body or close ≥ previous close), and WILLR recovering (strict
upward cross through -80, or emerged from ≤ -85 within the trailing 3
candles with the current value ≥ -80). -/
def buyCondSpec (f : Frame) (i : Nat) : Bool :=
  (decide (f.rsi i < 30) ||
   (decide (f.rsi (i-1) < 30) && decide (f.rsi i ≥ 30)) ||
   (List.range' (i-12) 12).any fun j => decide (f.rsi j ≤ 30)) &&
  (decide (f.closeP i > f.openP i) || decide (f.closeP i ≥ f.closeP (i-1))) &&
  ((decide (f.willr (i-1) ≤ -80) && decide (f.willr i > -80)) ||
   (((List.range' (i-3) 3).any fun j => decide (f.willr j ≤ -85)) && decide (f.willr i ≥ -80)))

/-- Frame witnessing the boundary mismatch of the SELL crossing: WILLR
sits exactly at -20 on the previous candle. -/
def cf3 : Frame where
  len := 13
  openP := fun _ => 0
  highP := fun _ => 0
  lowP := fun _ => 0
  closeP := fun i => if i = 11 then 11 else if i = 12 then 10 else 0
  rsi := fun i => if i = 12 then 75 else 0
  willr := fun i => if i = 11 then -20 else if i = 12 then -25 else 0

/-- Frame on which three sell-direction passes fire at the same index. -/
def cf5 : Frame where
  len := 14
  openP := fun _ => 0
  highP := fun _ => 0
  lowP := fun _ => 0
  closeP := fun i => if i = 12 then 10 else if i = 13 then 9 else 0
  rsi := fun i => if i = 13 then 75 else 0
  willr := fun i => if i = 12 then -10 else if i = 13 then -25 else 0

/-- Claim C3 counterexample: at index 12 of `cf3` the claim's SELL
condition holds (previous WILLR = -20 ≥ -20, current -25 < -20, RSI 75,
close falling) yet the code emits no SELL signal there, because the code
requires the previous WILLR to be strictly above -20. -/
theorem c3_sell_boundary_counterexample :
    sellCondSpec cf3 12 = true ∧ 12 ∉ sellSignals "15m" cf3 := by decide

/-- Claim C3 (amended): a SELL signal is emitted at index i exactly when
12 ≤ i < len and: RSI now > 70 or RSI ≥ 70 somewhere 5 to 10 candles
back, the close fell, and WILLR moved from strictly above -20 to ≤ -20. -/
theorem sell_signal_iff (f : Frame) (i : Nat) :
    i ∈ sellSignals "15m" f ↔ 12 ≤ i ∧ i < f.len ∧ sellCondAmended f i = true := by
  have h : sellSignals "15m" f = (List.range' 12 (f.len - 12)).filter (sellCond f) := by
    simp [sellSignals]
  rw [h, mem_filter_range']
  exact Iff.rfl

/-- Claim C4: a BUY signal is emitted at index i exactly when 12 ≤ i < len
and the claim's three conjuncts hold (RSI oversold now / upward cross
through 30 / dip ≤ 30 in the trailing 12 candles; bullish body or close ≥
previous close; WILLR strict upward cross through -80 or emergence from
≤ -85 within the trailing 3 candles with current value ≥ -80). -/
theorem buy_signal_iff (f : Frame) (i : Nat) :
    i ∈ buySignals "15m" f ↔ 12 ≤ i ∧ i < f.len ∧ buyCondSpec f i = true := by
  have h : buySignals "15m" f = (List.range' 12 (f.len - 12)).filter (buyCond f) := by
    simp [buySignals]
  rw [h, mem_filter_range']
  exact Iff.rfl

/-- A filtered `range'` list holds any index at most once. -/
theorem count_filter_range'_le_one (s n : Nat) (p : Nat → Bool) (i : Nat) :
    (((List.range' s n).filter p).count i) ≤ 1 := by
  have hnd : ((List.range' s n).filter p).Nodup := (List.nodup_range' s n).filter p
  exact List.nodup_iff_count_le_one.mp hnd i

/-- Claim C5 counterexample: at index 13 of `cf5` the unified SELL trigger
holds, yet three sell-kind events are emitted there (blocks 1, 2 and the
unified engine all fire), not exactly one. -/
theorem c5_duplicate_sell_events :
    sellCond cf5 13 = true ∧ sellKindCount "15m" cf5 13 = 3 := by decide

/-- Claim C5 (amended): each individual detection pass emits at most one
event per index whatever the timeframe, and each pass fires at an index
exactly when that index is in the pass's range and the pass's local
condition holds — no cool-down, indices are evaluated independently.
Distinct passes, however, may fire at the same index. -/
theorem signal_passes_independent (tf : String) (f : Frame) (i : Nat) :
    ((block1Signals tf f).count i ≤ 1 ∧ (block2Signals tf f).count i ≤ 1 ∧
     (block3Signals tf f).count i ≤ 1 ∧ (sellSignals tf f).count i ≤ 1 ∧
     (buySignals tf f).count i ≤ 1) ∧
    (i ∈ block1Signals "15m" f ↔ 1 ≤ i ∧ i < f.len ∧ block1Cond f i = true) ∧
    (i ∈ block2Signals "15m" f ↔ 1 ≤ i ∧ i < f.len ∧ block2Cond f i = true) ∧
    (i ∈ block3Signals "15m" f ↔ 10 ≤ i ∧ i < f.len ∧ block3Cond f i = true) ∧
    (i ∈ sellSignals "15m" f ↔ 12 ≤ i ∧ i < f.len ∧ sellCond f i = true) ∧
    (i ∈ buySignals "15m" f ↔ 12 ≤ i ∧ i < f.len ∧ buyCond f i = true) := by
  refine ⟨?_, ?_, ?_, ?_, ?_, ?_⟩
  · by_cases h : tf = "15m" <;>
      simp [block1Signals, block2Signals, block3Signals, sellSignals, buySignals, h,
        count_filter_range'_le_one]
  · rw [show block1Signals "15m" f = (List.range' 1 (f.len - 1)).filter (block1Cond f) by
      simp [block1Signals], mem_filter_range']
  · rw [show block2Signals "15m" f = (List.range' 1 (f.len - 1)).filter (block2Cond f) by
      simp [block2Signals], mem_filter_range']
  · rw [show block3Signals "15m" f = (List.range' 10 (f.len - 10)).filter (block3Cond f) by
      simp [block3Signals], mem_filter_range']
  · rw [show sellSignals "15m" f = (List.range' 12 (f.len - 12)).filter (sellCond f) by
      simp [sellSignals], mem_filter_range']
  · rw [show buySignals "15m" f = (List.range' 12 (f.len - 12)).filter (buyCond f) by
      simp [buySignals], mem_filter_range']

/-- Claim C10: on any timeframe other than "15m", none of the five
detection passes emits any signal, whatever the frame contents. -/
theorem signals_only_on_15m (tf : String) (f : Frame) (h : tf ≠ "15m") :
    block1Signals tf f = [] ∧ block2Signals tf f = [] ∧ block3Signals tf f = [] ∧
    sellSignals tf f = [] ∧ buySignals tf f = [] := by
  simp [block1Signals, block2Signals, block3Signals, sellSignals, buySignals, h]

/-- Witness for C10 at the concrete timeframe "1h" on `cf5`. -/
theorem signals_only_on_15m_witness :
    ("1h" ≠ "15m") ∧
    (block1Signals "1h" cf5 = [] ∧ block2Signals "1h" cf5 = [] ∧
     block3Signals "1h" cf5 = [] ∧ sellSignals "1h" cf5 = [] ∧
     buySignals "1h" cf5 = []) :=
  ⟨by decide, signals_only_on_15m "1h" cf5 (by decide)⟩

/-- Exponential-weighted recurrence of pandas ewm(adjust=False).mean()
after the head seeds the average: each step e = (1-α)·prev + α·x. -/
def ewmAux (a : ℚ) (prev : ℚ) : List ℚ → List ℚ
  | [] => []
  | x :: xs =>
    let e := (1 - a) * prev + a * x
    e :: ewmAux a e xs

/-- pandas Series.ewm(alpha=a, adjust=False).mean(): the head of the
series seeds the recurrence. -/
def ewm (a : ℚ) : List ℚ → List ℚ
  | [] => []
  | x :: xs => x :: ewmAux a x xs

/-- Upward close-to-close moves, diff(1).where(diff > 0, 0.0): the head
(whose diff is NaN, and NaN > 0 is false) becomes 0. -/
def upMoves : List ℚ → List ℚ
  | [] => []
  | c :: cs => 0 :: List.zipWith (fun a b => max (b - a) 0) (c :: cs) cs

/-- Downward close-to-close move magnitudes, -diff(1).where(diff < 0, -0.0). -/
def downMoves : List ℚ → List ℚ
  | [] => []
  | c :: cs => 0 :: List.zipWith (fun a b => max (a - b) 0) (c :: cs) cs

/-- min_periods masking of pandas on an all-numeric input series: the
output at position i is defined once at least m observations were seen. -/
def mask (m : Nat) (l : List ℚ) : List (Option ℚ) :=
  (List.range l.length).map fun i => if i + 1 < m then none else some (l.getD i 0)

/-- RSI body of ta.momentum.RSIIndicator: np.where(emadn == 0, 100,
100 - 100/(1 + emaup/emadn)). -/
def rsiBody (u d : ℚ) : ℚ := if d = 0 then 100 else 100 - 100 / (1 + u / d)

/-- Unmasked RSI line: Wilder smoothing (alpha = 1/14) of the up and down
move series, combined by `rsiBody`. -/
def rsiRaw (c : List ℚ) : List ℚ :=
  List.zipWith rsiBody (ewm (1/14) (upMoves c)) (ewm (1/14) (downMoves c))

/-- RSI column produced by ta.momentum.RSIIndicator(close, window=14):
masked below 14 observations. -/
def rsiSeries (c : List ℚ) : List (Option ℚ) := mask 14 (rsiRaw c)

/-- Unmasked MACD line: EMA(span 12) - EMA(span 26), alpha = 2/(span+1). -/
def macdRaw (c : List ℚ) : List ℚ :=
  List.zipWith (fun a b => a - b) (ewm (2/13) c) (ewm (2/27) c)

/-- MACD column of ta.trend.MACD: NaN while the slow EMA (min_periods 26)
is undefined. -/
def macdSeries (c : List ℚ) : List (Option ℚ) := mask 26 (macdRaw c)

/-- MACD signal column: EMA(span 9, min_periods 9) of the MACD line.
pandas ewm skips the 25 leading NaN entries of the MACD line, so the
recurrence is seeded at position 25 and masked for 8 further entries. -/
def macdSignalSeries (c : List ℚ) : List (Option ℚ) :=
  List.replicate (min 25 c.length) none ++ mask 9 (ewm (1/5) ((macdRaw c).drop 25))

/-- Pointwise difference where both operands are defined; NaN otherwise. -/
def optSub : Option ℚ → Option ℚ → Option ℚ
  | some a, some b => some (a - b)
  | _, _ => none

/-- MACD histogram column: MACD line minus signal line. -/
def macdHistSeries (c : List ℚ) : List (Option ℚ) :=
  List.zipWith optSub (macdSeries c) (macdSignalSeries c)

/-- Williams %R column of ta.momentum.WilliamsRIndicator(lbp=14):
-100·(highestHigh - close)/(highestHigh - lowestLow) over the trailing
14-candle window, masked below 14 observations; when the window's high
equals its low, pandas divides by zero and produces a non-number
(NaN or ±inf), modelled as no-value. -/
def willrSeries (h l c : List ℚ) : List (Option ℚ) :=
  (List.range c.length).map fun i =>
    if i + 1 < 14 then none
    else
      let hh := ((h.take (i+1)).drop (i-13)).foldl max (h.getD (i-13) 0)
      let ll := ((l.take (i+1)).drop (i-13)).foldl min (l.getD (i-13) 0)
      if hh = ll then none else some (-100 * (hh - c.getD i 0) / (hh - ll))

/-- Candle dataframe as produced by fetch_ohlcv: parallel numeric columns
(time as millisecond stamps). A failed fetch yields the empty frame. -/
structure Df where
  time : List Nat
  openC : List ℚ
  highC : List ℚ
  lowC : List ℚ
  closeC : List ℚ
  volumeC : List ℚ

/-- Dataframe after add_indicators: the candle columns plus the five
indicator columns. -/
structure IndFrame where
  base : Df
  rsiS : List (Option ℚ)
  macdS : List (Option ℚ)
  macdSignalS : List (Option ℚ)
  macdHistS : List (Option ℚ)
  willrS : List (Option ℚ)

/-- add_indicators (app.py lines 79-91): an empty frame is returned
untouched; otherwise the five indicator columns are computed and attached
while the candle columns stay as they were. -/
def add_indicators (df : Df) : IndFrame :=
  if df.closeC.isEmpty then ⟨df, [], [], [], [], []⟩
  else
    ⟨df, rsiSeries df.closeC, macdSeries df.closeC, macdSignalSeries df.closeC,
     macdHistSeries df.closeC, willrSeries df.highC df.lowC df.closeC⟩

theorem ewmAux_length (a p : ℚ) (l : List ℚ) : (ewmAux a p l).length = l.length := by
  induction l generalizing p with
  | nil => rfl
  | cons x xs ih => simp [ewmAux, ih]

theorem ewm_length (a : ℚ) (l : List ℚ) : (ewm a l).length = l.length := by
  cases l with
  | nil => rfl
  | cons x xs => simp [ewm, ewmAux_length]

theorem upMoves_length (c : List ℚ) : (upMoves c).length = c.length := by
  cases c with
  | nil => rfl
  | cons x xs => simp [upMoves]

theorem downMoves_length (c : List ℚ) : (downMoves c).length = c.length := by
  cases c with
  | nil => rfl
  | cons x xs => simp [downMoves]

theorem mask_length (m : Nat) (l : List ℚ) : (mask m l).length = l.length := by
  simp [mask]

theorem rsiRaw_length (c : List ℚ) : (rsiRaw c).length = c.length := by
  simp [rsiRaw, ewm_length, upMoves_length, downMoves_length]

theorem rsiSeries_length (c : List ℚ) : (rsiSeries c).length = c.length := by
  simp [rsiSeries, mask_length, rsiRaw_length]

theorem macdRaw_length (c : List ℚ) : (macdRaw c).length = c.length := by
  simp [macdRaw, ewm_length]

theorem macdSeries_length (c : List ℚ) : (macdSeries c).length = c.length := by
  simp [macdSeries, mask_length, macdRaw_length]

theorem macdSignalSeries_length (c : List ℚ) :
    (macdSignalSeries c).length = c.length := by
  simp [macdSignalSeries, mask_length, ewm_length, macdRaw_length]
  omega

theorem macdHistSeries_length (c : List ℚ) :
    (macdHistSeries c).length = c.length := by
  simp [macdHistSeries, macdSeries_length, macdSignalSeries_length]

theorem willrSeries_length (h l c : List ℚ) :
    (willrSeries h l c).length = c.length := by
  simp [willrSeries]

theorem mask_getElem?_warmup (m : Nat) (l : List ℚ) (i : Nat)
    (h1 : i < l.length) (h2 : i + 1 < m) : (mask m l)[i]? = some none := by
  unfold mask
  rw [List.getElem?_map, List.getElem?_range h1]
  simp only [Option.map_some']
  rw [if_pos h2]

theorem mask_getElem?_some (m : Nat) (l : List ℚ) (i : Nat)
    (h1 : i < l.length) : ∃ v, (mask m l)[i]? = some v := by
  unfold mask
  rw [List.getElem?_map, List.getElem?_range h1]
  exact ⟨_, rfl⟩

theorem rsiSeries_warmup (c : List ℚ) (i : Nat) (h1 : i < c.length)
    (h2 : i < 13) : (rsiSeries c)[i]? = some none :=
  mask_getElem?_warmup 14 (rsiRaw c) i (by rw [rsiRaw_length]; exact h1) (by omega)

theorem willrSeries_warmup (h l c : List ℚ) (i : Nat) (h1 : i < c.length)
    (h2 : i < 13) : (willrSeries h l c)[i]? = some none := by
  unfold willrSeries
  rw [List.getElem?_map, List.getElem?_range h1]
  simp only [Option.map_some']
  rw [if_pos (by omega)]

theorem macdSeries_warmup (c : List ℚ) (i : Nat) (h1 : i < c.length)
    (h2 : i < 25) : (macdSeries c)[i]? = some none :=
  mask_getElem?_warmup 26 (macdRaw c) i (by rw [macdRaw_length]; exact h1) (by omega)

theorem macdSignalSeries_warmup (c : List ℚ) (i : Nat) (h1 : i < c.length)
    (h2 : i < 33) : (macdSignalSeries c)[i]? = some none := by
  unfold macdSignalSeries
  rw [List.getElem?_append]
  by_cases hc : i < min 25 c.length
  · rw [if_pos (by simpa using hc)]
    exact List.getElem?_replicate_of_lt hc
  · rw [if_neg (by simp only [List.length_replicate]; omega)]
    have h25 : min 25 c.length = 25 := by omega
    simp only [List.length_replicate, h25]
    exact mask_getElem?_warmup 9 _ (i - 25)
      (by rw [ewm_length, List.length_drop, macdRaw_length]; omega) (by omega)

theorem optSub_none_right (x : Option ℚ) : optSub x none = none := by
  cases x <;> rfl

theorem macdHistSeries_warmup (c : List ℚ) (i : Nat) (h1 : i < c.length)
    (h2 : i < 33) : (macdHistSeries c)[i]? = some none := by
  unfold macdHistSeries
  rw [List.getElem?_zipWith]
  obtain ⟨v, hv⟩ := mask_getElem?_some 26 (macdRaw c) i (by rw [macdRaw_length]; exact h1)
  rw [show macdSeries c = mask 26 (macdRaw c) from rfl] at *
  rw [hv, macdSignalSeries_warmup c i h1 h2]
  simp [optSub_none_right]

theorem all_none_of_warmup {l : List (Option ℚ)}
    (h : ∀ i, i < l.length → l[i]? = some none) : ∀ x ∈ l, x = none := by
  intro x hx
  obtain ⟨i, hi, rfl⟩ := List.mem_iff_getElem.mp hx
  have := h i hi
  rw [List.getElem?_eq_getElem hi] at this
  exact Option.some.inj this

/-- Claim C9: add_indicators leaves the candle columns untouched, the five
indicator columns all have the same length as the candle sequence, and the
leading warm-up entries of each column are no-value (none), not zero. -/
theorem add_indicators_parallel (df : Df) (i : Nat) (h1 : i < df.closeC.length) :
    (add_indicators df).base = df ∧
    (add_indicators df).rsiS.length = df.closeC.length ∧
    (add_indicators df).macdS.length = df.closeC.length ∧
    (add_indicators df).macdSignalS.length = df.closeC.length ∧
    (add_indicators df).macdHistS.length = df.closeC.length ∧
    (add_indicators df).willrS.length = df.closeC.length ∧
    (i < 13 → (add_indicators df).rsiS[i]? = some none) ∧
    (i < 13 → (add_indicators df).willrS[i]? = some none) ∧
    (i < 25 → (add_indicators df).macdS[i]? = some none) ∧
    (i < 33 → (add_indicators df).macdSignalS[i]? = some none) ∧
    (i < 33 → (add_indicators df).macdHistS[i]? = some none) := by
  have hne : df.closeC.isEmpty = false := by
    cases hc : df.closeC.isEmpty
    · rfl
    · rw [List.isEmpty_iff] at hc
      rw [hc] at h1
      simp at h1
  have hrw : add_indicators df =
      ⟨df, rsiSeries df.closeC, macdSeries df.closeC, macdSignalSeries df.closeC,
       macdHistSeries df.closeC, willrSeries df.highC df.lowC df.closeC⟩ := by
    simp [add_indicators, hne]
  rw [hrw]
  exact ⟨rfl, rsiSeries_length _, macdSeries_length _, macdSignalSeries_length _,
    macdHistSeries_length _, willrSeries_length _ _ _,
    fun h2 => rsiSeries_warmup _ i h1 h2,
    fun h2 => willrSeries_warmup _ _ _ i h1 h2,
    fun h2 => macdSeries_warmup _ i h1 h2,
    fun h2 => macdSignalSeries_warmup _ i h1 h2,
    fun h2 => macdHistSeries_warmup _ i h1 h2⟩

/-- Concrete 5-candle frame: non-empty but far too short for any of the
indicator warm-up windows. -/
def df5 : Df where
  time := [0, 1, 2, 3, 4]
  openC := [1, 1, 1, 1, 1]
  highC := [2, 2, 2, 2, 2]
  lowC := [1, 1, 1, 1, 1]
  closeC := [1, 2, 3, 4, 5]
  volumeC := [0, 0, 0, 0, 0]

/-- Witness for C9 at the 5-candle frame and index 0. -/
theorem add_indicators_parallel_witness :
    (add_indicators df5).base = df5 ∧
    (add_indicators df5).rsiS.length = df5.closeC.length ∧
    (add_indicators df5).rsiS[0]? = some none ∧
    (add_indicators df5).macdS[0]? = some none ∧
    (add_indicators df5).macdSignalS[0]? = some none := by
  obtain ⟨h1, h2, h3, h4, h5, h6, h7, h8, h9, h10, h11⟩ :=
    add_indicators_parallel df5 0 (by decide)
  exact ⟨h1, h2, h7 (by decide), h9 (by decide), h10 (by decide)⟩

/-- Claim C6 counterexample: a too-short (5-candle) input does not come
back as an empty IndicatorFrame — add_indicators returns a frame of the
same non-zero length (with all indicator entries undefined). -/
theorem c6_short_input_not_empty :
    df5.closeC.length = 5 ∧ (add_indicators df5).base.closeC.isEmpty = false :=
  ⟨rfl, rfl⟩

/-- Claim C6 (amended): on an empty candle sequence add_indicators returns
the frame unchanged with no indicator columns; on a non-empty sequence
shorter than 14 candles it returns a frame of the same (non-zero) length
in which every indicator entry is no-value; it never raises. -/
theorem add_indicators_short (df : Df) :
    (df.closeC.isEmpty = true → add_indicators df = ⟨df, [], [], [], [], []⟩) ∧
    (df.closeC.length < 14 →
      (∀ x ∈ (add_indicators df).rsiS, x = none) ∧
      (∀ x ∈ (add_indicators df).macdS, x = none) ∧
      (∀ x ∈ (add_indicators df).macdSignalS, x = none) ∧
      (∀ x ∈ (add_indicators df).macdHistS, x = none) ∧
      (∀ x ∈ (add_indicators df).willrS, x = none)) := by
  constructor
  · intro h
    simp [add_indicators, h]
  · intro hn
    cases hc : df.closeC.isEmpty
    · simp only [add_indicators, hc, Bool.false_eq_true, if_false]
      refine ⟨all_none_of_warmup ?_, all_none_of_warmup ?_, all_none_of_warmup ?_,
        all_none_of_warmup ?_, all_none_of_warmup ?_⟩
      · intro i hi
        rw [rsiSeries_length] at hi
        exact rsiSeries_warmup _ i hi (by omega)
      · intro i hi
        rw [macdSeries_length] at hi
        exact macdSeries_warmup _ i hi (by omega)
      · intro i hi
        rw [macdSignalSeries_length] at hi
        exact macdSignalSeries_warmup _ i hi (by omega)
      · intro i hi
        rw [macdHistSeries_length] at hi
        exact macdHistSeries_warmup _ i hi (by omega)
      · intro i hi
        rw [willrSeries_length] at hi
        exact willrSeries_warmup _ _ _ i hi (by omega)
    · simp [add_indicators, hc]

/-- Witness for C6 (amended) at the 5-candle frame. -/
theorem add_indicators_short_witness :
    df5.closeC.length < 14 ∧ (add_indicators df5).rsiS.getD 2 (some 37) = none :=
  ⟨by decide, ((add_indicators_short df5).2 (by decide)).1 _ (by decide)⟩

theorem exists_of_mem_zipWith {α β γ : Type} {f : α → β → γ} {l1 : List α}
    {l2 : List β} {x : γ} (hx : x ∈ List.zipWith f l1 l2) :
    ∃ a b, a ∈ l1 ∧ b ∈ l2 ∧ x = f a b := by
  induction l1 generalizing l2 with
  | nil => simp at hx
  | cons a as ih =>
    cases l2 with
    | nil => simp at hx
    | cons b bs =>
      rw [List.zipWith_cons_cons, List.mem_cons] at hx
      rcases hx with rfl | hx
      · exact ⟨a, b, List.mem_cons_self _ _, List.mem_cons_self _ _, rfl⟩
      · obtain ⟨a, b, ha, hb, rfl⟩ := ih hx
        exact ⟨a, b, List.mem_cons_of_mem _ ha, List.mem_cons_of_mem _ hb, rfl⟩

theorem ewmAux_nonneg {a prev : ℚ} {l : List ℚ} (h0 : 0 ≤ a) (h1 : a ≤ 1)
    (hp : 0 ≤ prev) (hl : ∀ x ∈ l, 0 ≤ x) : ∀ y ∈ ewmAux a prev l, 0 ≤ y := by
  induction l generalizing prev with
  | nil => intro y hy; simp [ewmAux] at hy
  | cons x xs ih =>
    intro y hy
    have hx : 0 ≤ x := hl x (List.mem_cons_self _ _)
    have he : 0 ≤ (1 - a) * prev + a * x :=
      add_nonneg (mul_nonneg (by linarith) hp) (mul_nonneg h0 hx)
    rw [ewmAux, List.mem_cons] at hy
    rcases hy with rfl | hy
    · exact he
    · exact ih he (fun z hz => hl z (List.mem_cons_of_mem _ hz)) y hy

theorem ewm_nonneg {a : ℚ} {l : List ℚ} (h0 : 0 ≤ a) (h1 : a ≤ 1)
    (hl : ∀ x ∈ l, 0 ≤ x) : ∀ y ∈ ewm a l, 0 ≤ y := by
  cases l with
  | nil => intro y hy; simp [ewm] at hy
  | cons x xs =>
    intro y hy
    have hx : 0 ≤ x := hl x (List.mem_cons_self _ _)
    rw [ewm, List.mem_cons] at hy
    rcases hy with rfl | hy
    · exact hx
    · exact ewmAux_nonneg h0 h1 hx (fun z hz => hl z (List.mem_cons_of_mem _ hz)) y hy

theorem upMoves_nonneg (c : List ℚ) : ∀ x ∈ upMoves c, 0 ≤ x := by
  cases c with
  | nil => intro x hx; simp [upMoves] at hx
  | cons a as =>
    intro x hx
    rw [upMoves, List.mem_cons] at hx
    rcases hx with rfl | hx
    · exact le_refl 0
    · obtain ⟨u, v, _, _, rfl⟩ := exists_of_mem_zipWith hx
      exact le_max_right _ _

theorem downMoves_nonneg (c : List ℚ) : ∀ x ∈ downMoves c, 0 ≤ x := by
  cases c with
  | nil => intro x hx; simp [downMoves] at hx
  | cons a as =>
    intro x hx
    rw [downMoves, List.mem_cons] at hx
    rcases hx with rfl | hx
    · exact le_refl 0
    · obtain ⟨u, v, _, _, rfl⟩ := exists_of_mem_zipWith hx
      exact le_max_right _ _

theorem rsiBody_bounds {u d : ℚ} (hu : 0 ≤ u) (hd : 0 ≤ d) :
    0 ≤ rsiBody u d ∧ rsiBody u d ≤ 100 := by
  by_cases hz : d = 0
  · norm_num [rsiBody, hz]
  · have hd' : 0 < d := lt_of_le_of_ne hd (Ne.symm hz)
    have ht : 0 ≤ u / d := div_nonneg hu hd'.le
    have hub : 100 / (1 + u / d) ≤ 100 := div_le_self (by norm_num) (by linarith)
    have hlb : 0 ≤ 100 / (1 + u / d) := div_nonneg (by norm_num) (by linarith)
    rw [rsiBody, if_neg hz]
    constructor <;> linarith

theorem rsiRaw_bounds (c : List ℚ) : ∀ x ∈ rsiRaw c, 0 ≤ x ∧ x ≤ 100 := by
  intro x hx
  obtain ⟨u, d, hu, hd, rfl⟩ := exists_of_mem_zipWith hx
  exact rsiBody_bounds
    (ewm_nonneg (by norm_num) (by norm_num) (upMoves_nonneg c) u hu)
    (ewm_nonneg (by norm_num) (by norm_num) (downMoves_nonneg c) d hd)

theorem mem_of_mask_some {m : Nat} {l : List ℚ} {r : ℚ}
    (h : some r ∈ mask m l) : r ∈ l := by
  unfold mask at h
  obtain ⟨i, hi, hg⟩ := List.mem_map.mp h
  rw [List.mem_range] at hi
  split at hg
  · exact absurd hg (by simp)
  · have hgd : l.getD i 0 = r := Option.some.inj hg
    rw [List.getD_eq_getElem l 0 hi] at hgd
    exact hgd ▸ List.getElem_mem hi

theorem zipWith_replicate_shift (f : ℚ → ℚ → ℚ) (q : ℚ) :
    ∀ n, List.zipWith f (List.replicate (n+1) q) (List.replicate n q) =
      List.replicate n (f q q) := by
  intro n
  induction n with
  | zero => rfl
  | succ n ih =>
    rw [List.replicate_succ q (n+1), List.replicate_succ q n,
      List.zipWith_cons_cons, ← List.replicate_succ q n, ih, List.replicate_succ]

theorem upMoves_replicate (n : Nat) (q : ℚ) :
    upMoves (List.replicate n q) = List.replicate n 0 := by
  cases n with
  | zero => rfl
  | succ n =>
    rw [List.replicate_succ, upMoves, ← List.replicate_succ,
      zipWith_replicate_shift]
    simp
    exact (List.replicate_succ (0:ℚ) n).symm

theorem downMoves_replicate (n : Nat) (q : ℚ) :
    downMoves (List.replicate n q) = List.replicate n 0 := by
  cases n with
  | zero => rfl
  | succ n =>
    rw [List.replicate_succ, downMoves, ← List.replicate_succ,
      zipWith_replicate_shift]
    simp
    exact (List.replicate_succ (0:ℚ) n).symm

theorem ewmAux_zero (a : ℚ) : ∀ n, ewmAux a 0 (List.replicate n 0) = List.replicate n 0 := by
  intro n
  induction n with
  | zero => rfl
  | succ n ih =>
    rw [List.replicate_succ, ewmAux]
    simp only [mul_zero, add_zero]
    rw [ih]

theorem ewm_replicate_zero (a : ℚ) (n : Nat) :
    ewm a (List.replicate n 0) = List.replicate n 0 := by
  cases n with
  | zero => rfl
  | succ n => rw [List.replicate_succ, ewm, ewmAux_zero]

theorem zipWith_replicate_same (f : ℚ → ℚ → ℚ) (a b : ℚ) :
    ∀ n, List.zipWith f (List.replicate n a) (List.replicate n b) =
      List.replicate n (f a b) := by
  intro n
  induction n with
  | zero => rfl
  | succ n ih =>
    rw [List.replicate_succ a, List.replicate_succ b, List.zipWith_cons_cons, ih,
      List.replicate_succ]

theorem rsiRaw_replicate (n : Nat) (q : ℚ) :
    rsiRaw (List.replicate n q) = List.replicate n 100 := by
  unfold rsiRaw
  rw [upMoves_replicate, downMoves_replicate, ewm_replicate_zero,
    zipWith_replicate_same]
  simp [rsiBody]

theorem mask_getElem?_value (m : Nat) (l : List ℚ) (i : Nat)
    (h1 : i < l.length) (h2 : ¬ i + 1 < m) :
    (mask m l)[i]? = some (some (l.getD i 0)) := by
  unfold mask
  rw [List.getElem?_map, List.getElem?_range h1]
  simp only [Option.map_some']
  rw [if_neg h2]

/-- Python value returned by get_latest_rsi: None on an empty frame, NaN
when the last RSI entry is undefined, a number otherwise. In a Python
truth test None is falsy, NaN is truthy, a number is truthy iff nonzero;
any comparison against NaN is false. -/
inductive PyVal where
  | none : PyVal
  | nan : PyVal
  | num : ℚ → PyVal
deriving DecidableEq

/-- Rounding to two decimal places as in round(x, 2). Python uses
round-half-to-even; this model rounds half upward, which agrees with it
everywhere except at exact half-cent ties (irrelevant to the claims). -/
def round2 (q : ℚ) : ℚ := (round (q * 100) : ℚ) / 100

/-- get_latest_rsi (app.py lines 93-98): fetch the closes (a failed or
empty fetch is the empty list), return None on an empty frame and
otherwise the last RSI entry rounded to two decimals (NaN when that entry
is still inside the warm-up window). -/
def get_latest_rsi (fetch : String → List ℚ) (sym : String) : PyVal :=
  if (fetch sym).isEmpty then .none
  else
    match (rsiSeries (fetch sym)).getD ((fetch sym).length - 1) Option.none with
    | Option.none => .nan
    | Option.some r => .num (round2 r)

/-- One iteration of the scanner loop (app.py lines 142-149): skip falsy
values (None from a failed fetch, and a numeric RSI of exactly 0), put
RSI > 70 in the overbought list, elif RSI < 30 in the oversold list. NaN
is truthy but fails both comparisons. -/
def scanStep (fetch : String → List ℚ)
    (ab : List (String × ℚ) × List (String × ℚ)) (sym : String) :
    List (String × ℚ) × List (String × ℚ) :=
  match get_latest_rsi fetch sym with
  | .num q =>
    if q = 0 then ab
    else if q > 70 then (ab.1 ++ [(sym, q)], ab.2)
    else if q < 30 then (ab.1, ab.2 ++ [(sym, q)])
    else ab
  | _ => ab

/-- The scanner loop over the capped symbol list, accumulating the
overbought (RSI > 70) and oversold (RSI < 30) shortlists. -/
def runScan (fetch : String → List ℚ) (symbols : List String) :
    List (String × ℚ) × List (String × ℚ) :=
  symbols.foldl (scanStep fetch) ([], [])

/-- Claim C8: every defined RSI entry lies in [0, 100]; and on a constant
closes series of length ≥ 15 the last RSI entry is a defined 100 (no
division by zero, no NaN), so get_latest_rsi reports the number 100. -/
theorem rsi_range_and_constant :
    (∀ (c : List ℚ) (r : ℚ), some r ∈ rsiSeries c → 0 ≤ r ∧ r ≤ 100) ∧
    (∀ (n : Nat) (q : ℚ), 15 ≤ n →
      (rsiSeries (List.replicate n q))[n - 1]? = some (some 100) ∧
      get_latest_rsi (fun _ => List.replicate n q) "X" = PyVal.num 100) := by
  constructor
  · intro c r hmem
    exact rsiRaw_bounds c r (mem_of_mask_some hmem)
  · intro n q hn
    have hlast : (rsiSeries (List.replicate n q))[n - 1]? = some (some 100) := by
      unfold rsiSeries
      rw [rsiRaw_replicate]
      rw [mask_getElem?_value 14 _ (n-1) (by simp; omega) (by omega)]
      rw [List.getD_eq_getElem _ 0 (show n - 1 < (List.replicate n (100:ℚ)).length by
        simp; omega)]
      simp
    refine ⟨hlast, ?_⟩
    unfold get_latest_rsi
    have hne : (List.replicate n q).isEmpty = false := by
      cases n with
      | zero => exact absurd hn (by omega)
      | succ m => rfl
    simp only [hne, Bool.false_eq_true, if_false]
    have hD : (rsiSeries (List.replicate n q)).getD ((List.replicate n q).length - 1)
        Option.none = some 100 := by
      rw [List.getD_eq_getD_get?, List.get?_eq_getElem?, List.length_replicate, hlast]
      rfl
    rw [hD]
    show PyVal.num (round2 100) = PyVal.num 100
    have hr : round2 100 = 100 := by
      unfold round2
      rw [show ((100:ℚ) * 100) = ((10000 : ℤ) : ℚ) by norm_num, round_intCast]
      norm_num
    rw [hr]

/-- Index-to-option bridging: a valid index yields its getD value. -/
theorem getElem?_eq_some_getD {l : List ℚ} {i : Nat} (h : i < l.length) :
    l[i]? = some (l.getD i 0) := by
  rw [List.getElem?_eq_getElem h, List.getD_eq_getElem l 0 h]

/-- Witness for C8: a constant closes series of 15 candles at price 10. -/
theorem rsi_range_and_constant_witness :
    (some (100:ℚ) ∈ rsiSeries (List.replicate 15 (10:ℚ)) ∧
      (0:ℚ) ≤ 100 ∧ (100:ℚ) ≤ 100) ∧
    ((15:Nat) ≤ 15 ∧
      ((rsiSeries (List.replicate 15 (10:ℚ)))[15 - 1]? = some (some 100) ∧
       get_latest_rsi (fun _ => List.replicate 15 (10:ℚ)) "X" = PyVal.num 100)) := by
  have hmem : some (100:ℚ) ∈ rsiSeries (List.replicate 15 (10:ℚ)) :=
    List.mem_iff_getElem?.mpr
      ⟨14, (rsi_range_and_constant.2 15 10 (by norm_num)).1⟩
  exact ⟨⟨hmem, rsi_range_and_constant.1 (List.replicate 15 10) 100 hmem⟩,
    ⟨by norm_num, rsi_range_and_constant.2 15 10 (by norm_num)⟩⟩

/-- Overbought selector of the scanner, as the amended claim words it:
a successfully fetched symbol whose rounded last RSI is a number above 70. -/
def aboveSel (fetch : String → List ℚ) (sym : String) : Option (String × ℚ) :=
  match get_latest_rsi fetch sym with
  | .num q => if q > 70 then some (sym, q) else Option.none
  | _ => Option.none

/-- Oversold selector of the scanner, as the amended claim words it: a
successfully fetched symbol whose rounded last RSI is a nonzero number
below 30 (a value of exactly 0 is falsy and skipped by the loop). -/
def belowSel (fetch : String → List ℚ) (sym : String) : Option (String × ℚ) :=
  match get_latest_rsi fetch sym with
  | .num q => if q ≠ 0 ∧ q < 30 then some (sym, q) else Option.none
  | _ => Option.none

theorem scan_foldl_eq (fetch : String → List ℚ) :
    ∀ (symbols : List String) (ab : List (String × ℚ) × List (String × ℚ)),
      symbols.foldl (scanStep fetch) ab =
        (ab.1 ++ symbols.filterMap (aboveSel fetch),
         ab.2 ++ symbols.filterMap (belowSel fetch)) := by
  intro symbols
  induction symbols with
  | nil => intro ab; simp
  | cons s ss ih =>
    intro ab
    rw [List.foldl_cons, ih, List.filterMap_cons, List.filterMap_cons]
    cases hv : get_latest_rsi fetch s with
    | none => simp [scanStep, aboveSel, belowSel, hv]
    | nan => simp [scanStep, aboveSel, belowSel, hv]
    | num q =>
      by_cases h0 : q = 0
      · subst h0
        simp [scanStep, aboveSel, belowSel, hv,
          show ¬ (0:ℚ) > 70 from by norm_num]
      · by_cases h70 : q > 70
        · have h30 : ¬ q < 30 := by linarith
          simp [scanStep, aboveSel, belowSel, hv, h0, h70, h30]
        · by_cases h30 : q < 30
          · simp [scanStep, aboveSel, belowSel, hv, h0, h70, h30]
          · simp [scanStep, aboveSel, belowSel, hv, h0, h70, h30]

/-- Claim C7 (amended): the scanner shortlists are exactly the symbols
selected by the overbought (> 70) and oversold (nonzero and < 30)
selectors, in scan order; and a symbol whose fetch fails (empty frame)
contributes nothing and does not disturb the scan of the others. -/
theorem scan_resilient_and_shortlists (fetch : String → List ℚ)
    (symbols : List String) :
    runScan fetch symbols =
      (symbols.filterMap (aboveSel fetch), symbols.filterMap (belowSel fetch)) ∧
    (∀ (pre post : List String) (bad : String), fetch bad = [] →
      runScan fetch (pre ++ bad :: post) = runScan fetch (pre ++ post)) := by
  constructor
  · unfold runScan
    rw [scan_foldl_eq]
    simp
  · intro pre post bad hbad
    unfold runScan
    rw [scan_foldl_eq, scan_foldl_eq]
    have habove : aboveSel fetch bad = Option.none := by
      simp [aboveSel, get_latest_rsi, hbad]
    have hbelow : belowSel fetch bad = Option.none := by
      simp [belowSel, get_latest_rsi, hbad]
    simp [List.filterMap_append, List.filterMap_cons, habove, hbelow]

/-- Closes of a market that gaps down once and then stays flat: every
up-move is 0, so the smoothed up average is exactly 0 and the final RSI
is exactly 0. -/
def exCloses : List ℚ := 2 :: List.replicate 15 1

/-- Fetch behaviour returning `exCloses` for every symbol. -/
def exFetch : String → List ℚ := fun _ => exCloses

theorem exCloses_upMoves : upMoves exCloses = List.replicate 16 0 := by
  show upMoves (2 :: List.replicate 15 1) = _
  rw [upMoves]
  rw [show List.replicate 15 (1:ℚ) = 1 :: List.replicate 14 1 from rfl,
    List.zipWith_cons_cons,
    show (1:ℚ) :: List.replicate 14 1 = List.replicate 15 1 from rfl,
    zipWith_replicate_shift]
  have h1 : max ((1:ℚ) - 2) 0 = 0 := max_eq_right (by norm_num)
  have h2 : max ((1:ℚ) - 1) 0 = 0 := by rw [sub_self]; exact max_self 0
  rw [h1, h2]
  rfl

theorem exCloses_downMoves : downMoves exCloses = 0 :: 1 :: List.replicate 14 0 := by
  show downMoves (2 :: List.replicate 15 1) = _
  rw [downMoves]
  rw [show List.replicate 15 (1:ℚ) = 1 :: List.replicate 14 1 from rfl,
    List.zipWith_cons_cons,
    show (1:ℚ) :: List.replicate 14 1 = List.replicate 15 1 from rfl,
    zipWith_replicate_shift]
  have h1 : max ((2:ℚ) - 1) 0 = 1 := by
    rw [show (2:ℚ) - 1 = 1 from by norm_num]
    exact max_eq_left (by norm_num)
  have h2 : max ((1:ℚ) - 1) 0 = 0 := by rw [sub_self]; exact max_self 0
  rw [h1, h2]

theorem ewmAux_geom (a p : ℚ) :
    ∀ k, (ewmAux a p (List.replicate (k+1) 0)).getD k 0 = (1-a)^(k+1) * p := by
  intro k
  induction k generalizing p with
  | zero =>
    have hstep : ewmAux a p (List.replicate 1 (0:ℚ)) = [(1-a)*p + a*0] := rfl
    rw [hstep, List.getD_cons_zero]
    ring
  | succ k ih =>
    have hstep : ewmAux a p (List.replicate (k+1+1) (0:ℚ)) =
        ((1-a)*p + a*0) :: ewmAux a ((1-a)*p + a*0) (List.replicate (k+1) 0) := rfl
    rw [hstep, List.getD_cons_succ, ih]
    ring

theorem exEmadn15 :
    (ewm (1/14) (downMoves exCloses))[15]? = some ((1 - 1/14 : ℚ)^14 * (1/14)) := by
  rw [exCloses_downMoves]
  have hstep : ewm (1/14 : ℚ) (0 :: 1 :: List.replicate 14 0) =
      0 :: ((1 - 1/14)*0 + (1/14)*1) ::
        ewmAux (1/14) ((1 - 1/14)*0 + (1/14)*1) (List.replicate (13+1) 0) := rfl
  rw [hstep]
  rw [show (15:Nat) = 14 + 1 from rfl, List.getElem?_cons_succ,
    show (14:Nat) = 13 + 1 from rfl, List.getElem?_cons_succ]
  have hlen : (13:Nat) < (ewmAux (1/14 : ℚ) ((1 - 1/14)*0 + (1/14)*1)
      (List.replicate (13+1) (0:ℚ))).length := by
    rw [ewmAux_length, List.length_replicate]
    omega
  rw [getElem?_eq_some_getD hlen, ewmAux_geom]
  norm_num

theorem exRsi15 : (rsiRaw exCloses)[15]? = some 0 := by
  unfold rsiRaw
  rw [List.getElem?_zipWith]
  rw [show ewm (1/14) (upMoves exCloses) = List.replicate 16 0 from by
    rw [exCloses_upMoves, ewm_replicate_zero]]
  rw [List.getElem?_replicate_of_lt (by omega), exEmadn15]
  show some (rsiBody 0 ((1 - 1/14 : ℚ)^14 * (1/14))) = some 0
  have hD : ((1 - 1/14 : ℚ)^14 * (1/14)) ≠ 0 := by positivity
  rw [rsiBody, if_neg hD]
  norm_num

theorem exLatest : get_latest_rsi exFetch "AAAUSDT" = PyVal.num 0 := by
  unfold get_latest_rsi
  simp only [exFetch]
  rw [show exCloses.isEmpty = false from rfl]
  simp only [Bool.false_eq_true, if_false]
  have hgd : (rsiSeries exCloses).getD (exCloses.length - 1) Option.none = some 0 := by
    rw [show exCloses.length - 1 = 15 from rfl]
    unfold rsiSeries
    rw [List.getD_eq_getD_get?, List.get?_eq_getElem?]
    rw [mask_getElem?_value 14 _ 15 (by rw [rsiRaw_length]; norm_num [exCloses])
      (by omega)]
    have hv : (rsiRaw exCloses).getD 15 0 = 0 := by
      rw [List.getD_eq_getD_get?, List.get?_eq_getElem?, exRsi15]
      rfl
    simp only [Option.getD_some]
    rw [hv]
  rw [hgd]
  show PyVal.num (round2 0) = PyVal.num 0
  rw [show round2 0 = 0 from by simp [round2]]

/-- Claim C7 counterexample: the symbol is fetched successfully and its
RSI is 0, which is below 30, yet the oversold shortlist stays empty —
the scanner truthiness test drops a numeric RSI of exactly 0. -/
theorem c7_zero_rsi_skipped :
    get_latest_rsi exFetch "AAAUSDT" = PyVal.num 0 ∧ (0:ℚ) < 30 ∧
    runScan exFetch ["AAAUSDT"] = ([], []) := by
  refine ⟨exLatest, by norm_num, ?_⟩
  show List.foldl (scanStep exFetch) ([], []) ["AAAUSDT"] = ([], [])
  rw [List.foldl_cons,
    show scanStep exFetch ([], []) "AAAUSDT" = ([], []) from by
      unfold scanStep
      rw [exLatest]
      simp]
  rfl

/-- Fetch behaviour in which every request fails. -/
def nilFetch : String → List ℚ := fun _ => []

/-- Witness for C7 (amended): one failed symbol in the middle of a scan
leaves the scan of the others untouched. -/
theorem scan_resilient_witness :
    nilFetch "BBBUSDT" = [] ∧
    runScan nilFetch ["AAAUSDT", "BBBUSDT", "CCCUSDT"] =
      runScan nilFetch ["AAAUSDT", "CCCUSDT"] :=
  ⟨rfl, (scan_resilient_and_shortlists nilFetch []).2 ["AAAUSDT"] ["CCCUSDT"]
    "BBBUSDT" rfl⟩

/-- Modelled from the spec: the adapter failure taxonomy of the
multi-source fetch layer, which is not part of src/app.py (the
single-source variant); src/ has no fallback orchestrator. -/
inductive FailureKind where
  | authRejected : FailureKind
  | rateLimited : FailureKind
  | notFound : FailureKind
  | unreachable : FailureKind
  | unsupportedTimeframe : FailureKind
  | malformedPayload : FailureKind
deriving DecidableEq

/-- Modelled from the spec: one normalized candle row. -/
structure Candle where
  time : Nat
  openQ : ℚ
  highQ : ℚ
  lowQ : ℚ
  closeQ : ℚ
  volumeQ : Option ℚ
deriving DecidableEq

/-- Modelled from the spec: a provider adapter for one fetch request —
its identifier and the outcome its fetch produces for that request. -/
structure Adapter where
  id : String
  run : Except FailureKind (List Candle)

/-- Whether an outcome is a failure. -/
def isErr {e a : Type} : Except e a → Bool
  | Except.error _ => true
  | Except.ok _ => false

/-- Modelled from the spec: the fallback orchestrator — try the adapters
in order, return the first success together with that adapter's id, and
if every adapter fails return AllSourcesExhausted (here the error arm of
the result) carrying the (adapter, failure-kind) pairs in order. -/
def fetchWithFallback :
    List Adapter → Except (List (String × FailureKind)) (List Candle × String)
  | [] => Except.error []
  | a :: rest =>
    match a.run with
    | Except.ok c => Except.ok (c, a.id)
    | Except.error k =>
      match fetchWithFallback rest with
      | Except.ok r => Except.ok r
      | Except.error l => Except.error ((a.id, k) :: l)

/-- The (adapter, failure-kind) pairs of the failing adapters, in order. -/
def failurePairs (adapters : List Adapter) : List (String × FailureKind) :=
  adapters.filterMap fun a =>
    match a.run with
    | Except.error k => some (a.id, k)
    | Except.ok _ => Option.none

/-- Modelled from the spec: API credentials. -/
structure Credentials where
  key : String
  secret : String

/-- Modelled from the spec: the fixed priority chain — the authenticated
client participates only when credentials are supplied, followed by the
public exchange REST adapter, the multi-exchange client and the
aggregator API. -/
def orderedAdapters (creds : Option Credentials)
    (authRun pubRun multiRun aggRun : Except FailureKind (List Candle)) :
    List Adapter :=
  (match creds with
   | some _ => [⟨"authenticated-client", authRun⟩]
   | Option.none => []) ++
  [⟨"public-rest", pubRun⟩, ⟨"multi-exchange", multiRun⟩, ⟨"aggregator", aggRun⟩]

/-- Claim C1: when every adapter fails, the orchestrator fails with the
full ordered list of (adapter, failure-kind) pairs; and conversely an
error surfaces only when every adapter failed and it is exactly that
aggregate — adapter failures are never surfaced individually. -/
theorem fallback_all_sources_exhausted (adapters : List Adapter) :
    ((∀ a ∈ adapters, isErr a.run = true) →
      fetchWithFallback adapters = Except.error (failurePairs adapters)) ∧
    (∀ e, fetchWithFallback adapters = Except.error e →
      (∀ a ∈ adapters, isErr a.run = true) ∧ e = failurePairs adapters) := by
  induction adapters with
  | nil =>
    refine ⟨fun _ => rfl, fun e he => ⟨fun a ha => absurd ha (List.not_mem_nil a), ?_⟩⟩
    have : ([] : List (String × FailureKind)) = e := by
      injection he
    rw [← this]
    rfl
  | cons a rest ih =>
    constructor
    · intro h
      cases hr : a.run with
      | ok c =>
        have := h a (List.mem_cons_self a rest)
        rw [hr] at this
        exact absurd this (by simp [isErr])
      | error k =>
        have hrest := ih.1 fun b hb => h b (List.mem_cons_of_mem a hb)
        show fetchWithFallback (a :: rest) = _
        unfold fetchWithFallback
        rw [hr, hrest]
        simp [failurePairs, List.filterMap_cons, hr]
    · intro e he
      cases hr : a.run with
      | ok c =>
        unfold fetchWithFallback at he
        rw [hr] at he
        simp at he
      | error k =>
        unfold fetchWithFallback at he
        rw [hr] at he
        cases hrest : fetchWithFallback rest with
        | ok r =>
          rw [hrest] at he
          simp at he
        | error l =>
          rw [hrest] at he
          have hrec := ih.2 l hrest
          have hel : e = (a.id, k) :: l := by
            injection he with h1
            exact h1.symm
          constructor
          · intro b hb
            rcases List.mem_cons.mp hb with rfl | hb
            · rw [hr]; rfl
            · exact hrec.1 b hb
          · rw [hel, hrec.2]
            simp [failurePairs, List.filterMap_cons, hr]

/-- Adapter list for the C1 witness: two adapters, both failing. -/
def wAdapters : List Adapter :=
  [⟨"public-rest", Except.error FailureKind.unreachable⟩,
   ⟨"aggregator", Except.error FailureKind.notFound⟩]

/-- Witness for C1: both adapters fail, so the aggregate error carries
both (adapter, failure-kind) pairs. -/
theorem fallback_all_sources_exhausted_witness :
    fetchWithFallback wAdapters =
      Except.error [("public-rest", FailureKind.unreachable),
        ("aggregator", FailureKind.notFound)] :=
  (fallback_all_sources_exhausted wAdapters).1 (by decide)

/-- First-success helper: whatever stands after a prefix of failing
adapters, the first succeeding adapter decides the result and the tag. -/
theorem fetchWithFallback_first_ok :
    ∀ (pre : List Adapter) (a : Adapter) (rest : List Adapter) (c : List Candle),
      (∀ b ∈ pre, isErr b.run = true) → a.run = Except.ok c →
      fetchWithFallback (pre ++ a :: rest) = Except.ok (c, a.id) := by
  intro pre
  induction pre with
  | nil =>
    intro a rest c hpre ha
    show fetchWithFallback (a :: rest) = _
    unfold fetchWithFallback
    rw [ha]
  | cons b bs ih =>
    intro a rest c hpre ha
    have hb := hpre b (List.mem_cons_self b bs)
    cases hbr : b.run with
    | ok d => rw [hbr] at hb; exact absurd hb (by simp [isErr])
    | error k =>
      show fetchWithFallback (b :: (bs ++ a :: rest)) = _
      unfold fetchWithFallback
      rw [hbr, ih a rest c (fun x hx => hpre x (List.mem_cons_of_mem b hx)) ha]

/-- Claim C2: the chain respects the fixed priority order (authenticated
client present exactly when credentials are supplied), the first
succeeding adapter wins and tags the result with its id, and in
particular when everything except the aggregator fails the result is
tagged "aggregator". -/
theorem fallback_priority_order (creds : Option Credentials)
    (authRun pubRun multiRun aggRun : Except FailureKind (List Candle)) :
    ((orderedAdapters creds authRun pubRun multiRun aggRun).map Adapter.id =
      if creds.isSome then
        ["authenticated-client", "public-rest", "multi-exchange", "aggregator"]
      else ["public-rest", "multi-exchange", "aggregator"]) ∧
    (∀ (pre rest : List Adapter) (a : Adapter) (c : List Candle),
      (∀ b ∈ pre, isErr b.run = true) → a.run = Except.ok c →
      fetchWithFallback (pre ++ a :: rest) = Except.ok (c, a.id)) ∧
    (∀ (ka kp km : FailureKind) (c : List Candle),
      fetchWithFallback (orderedAdapters creds (Except.error ka) (Except.error kp)
        (Except.error km) (Except.ok c)) = Except.ok (c, "aggregator")) := by
  refine ⟨?_, fun pre rest a c h ha => fetchWithFallback_first_ok pre a rest c h ha, ?_⟩
  · cases creds <;> rfl
  · intro ka kp km c
    cases creds with
    | none =>
      have h : orderedAdapters Option.none (Except.error ka) (Except.error kp)
          (Except.error km) (Except.ok c) =
          [⟨"public-rest", Except.error kp⟩, ⟨"multi-exchange", Except.error km⟩] ++
            ⟨"aggregator", Except.ok c⟩ :: [] := rfl
      rw [h]
      exact fetchWithFallback_first_ok _ _ _ _
        (by
          intro b hb
          rcases List.mem_cons.mp hb with rfl | hb
          · rfl
          · rcases List.mem_cons.mp hb with rfl | hb
            · rfl
            · exact absurd hb (List.not_mem_nil b)) rfl
    | some cr =>
      have h : orderedAdapters (some cr) (Except.error ka) (Except.error kp)
          (Except.error km) (Except.ok c) =
          [⟨"authenticated-client", Except.error ka⟩, ⟨"public-rest", Except.error kp⟩,
           ⟨"multi-exchange", Except.error km⟩] ++ ⟨"aggregator", Except.ok c⟩ :: [] := rfl
      rw [h]
      exact fetchWithFallback_first_ok _ _ _ _
        (by
          intro b hb
          rcases List.mem_cons.mp hb with rfl | hb
          · rfl
          · rcases List.mem_cons.mp hb with rfl | hb
            · rfl
            · rcases List.mem_cons.mp hb with rfl | hb
              · rfl
              · exact absurd hb (List.not_mem_nil b)) rfl

/-- Witness for C2: a failing public REST adapter followed by a
succeeding aggregator — the fetch succeeds and the result is tagged with
the succeeding adapter's id. -/
theorem fallback_priority_order_witness :
    fetchWithFallback ([⟨"public-rest", Except.error FailureKind.unreachable⟩] ++
      ⟨"aggregator", Except.ok []⟩ :: []) = Except.ok ([], "aggregator") :=
  (fallback_priority_order Option.none (Except.ok []) (Except.ok [])
    (Except.ok []) (Except.ok [])).2.1
    [⟨"public-rest", Except.error FailureKind.unreachable⟩] []
    ⟨"aggregator", Except.ok []⟩ [] (by decide) rfl

end App
